import Mathlib

/-!
Shallow embedding of `MISP_SQL/error_detector.py` (MISP interactive
semantic-parsing repository).

The file models the four error-detector variants
(`ErrorDetectorSim`, `ErrorDetectorProbability`, `ErrorDetectorBayesDropout`,
`ErrorDetectorFNN`) and their shared `detection` loop.  The semantic-unit
segmenter `semantic_unit_segment` is, per the spec, an external collaborator
specified only at its interface (decision sequence ↦ equal-length lists of
semantic units and pointers); it is injected as a function parameter
`seg : List α → List SuPair`.  Python exceptions (TypeError on a missing
`eval_tf`, IndexError on an out-of-range pointer, KeyError on an unknown tag,
shape errors on a mis-shaped confidence field) are modelled by `Option`:
`none` is a raised exception that propagates to the caller, `some r` a normal
return of the list `r`.  Probabilities are modelled as rationals.
-/

/-- Confidence signal of a semantic unit: in the source, `semantic_unit[-2]`
holds either a scalar probability (probability / FNN detectors) or a
collection of stochastic forward-pass probabilities (Bayesian-dropout
detector).  Following the spec's design note, the variable-shape field is a
sum type. -/
inductive Conf where
  | scalar (p : ℚ)
  | samples (ps : List ℚ)
  deriving DecidableEq

/-- A semantic unit as consumed by the detectors: `tag_name` is
`semantic_unit[0]`, `conf` is `semantic_unit[-2]`. -/
structure SemanticUnit where
  tag_name : String
  conf : Conf
  deriving DecidableEq

/-- A (semantic unit, pointer) pair, the element type of segmentation output
and of every detection result. -/
abbrev SuPair := SemanticUnit × ℕ

/-- `eval_tf[pointer]` with Python failure modes: `eval_tf is None` raises a
TypeError and an out-of-range pointer raises an IndexError; both are `none`. -/
def evalTfGet (eval_tf : Option (List Bool)) (ptr : ℕ) : Option Bool :=
  match eval_tf with
  | none => none
  | some tf => tf[ptr]?

/-- Population mean, as computed by `np.mean` (exact rational arithmetic). -/
def listMean (xs : List ℚ) : ℚ := xs.sum / (xs.length : ℚ)

/-- Population variance (`ddof = 0`), the square of `np.std`. -/
def listVar (xs : List ℚ) : ℚ :=
  ((xs.map (fun x => (x - listMean xs) ^ 2)).sum) / (xs.length : ℚ)

/-- Variance of a confidence field as `np.std` sees it: `np.std` of a scalar
is `0.0`, of a collection its population standard deviation. -/
def confVar : Conf → ℚ
  | Conf.scalar _ => 0
  | Conf.samples xs => listVar xs

/-- The source comparison `np.std(semantic_unit[-2]) > self.stddev_threshold`,
decided in exact arithmetic: `np.std` is the nonnegative square root of the
population variance `v`, and for `v ≥ 0` one has `√v > t ↔ t < 0 ∨ t² < v`.
The lemma `npStdGT_iff_sqrt` below proves this boolean equal to the
real-number statement `(t : ℝ) < Real.sqrt v`. -/
def npStdGT (c : Conf) (t : ℚ) : Bool :=
  decide (t < 0) || decide (t ^ 2 < confVar c)

/-- Feature vector of `ErrorDetectorFNN.detection`: a zero row of width
`input_size = len(indexer) + 1`; then `x[0, -1] = prob`; then
`x[0, col_idx] = 1` (in that order, as in the source). -/
def mkFeature (input_size col_idx : ℕ) (prob : ℚ) : List ℚ :=
  ((List.replicate input_size (0 : ℚ)).set (input_size - 1) prob).set col_idx 1

/-- Per-unit error predicate of `ErrorDetectorSim.detection`: look up
`eval_tf[pointer]`; the unit is erroneous iff the ground-truth bit is false.
`none` is a raised exception (missing or too-short `eval_tf`). -/
def ErrorDetectorSim.eval (eval_tf : Option (List Bool)) : SuPair → Option Bool :=
  fun p => (evalTfGet eval_tf p.2).map Bool.not

/-- Per-unit error predicate of `ErrorDetectorProbability.detection`:
`prob = semantic_unit[-2]`, erroneous iff `prob < self.prob_threshold`.
A collection-shaped confidence field raises a TypeError (`none`): Python 3
cannot order a list against a float. -/
def ErrorDetectorProbability.eval (prob_threshold : ℚ) : SuPair → Option Bool :=
  fun p =>
    match p.1.conf with
    | Conf.scalar prob => some (decide (prob < prob_threshold))
    | Conf.samples _ => none

/-- Per-unit error predicate of `ErrorDetectorBayesDropout.detection`:
erroneous iff `np.std(semantic_unit[-2]) > self.stddev_threshold`
(total: `np.std` accepts a scalar, giving `0.0`). -/
def ErrorDetectorBayesDropout.eval (stddev_threshold : ℚ) : SuPair → Option Bool :=
  fun p => some (npStdGT p.1.conf stddev_threshold)

/-- Per-unit error predicate of `ErrorDetectorFNN.detection`: build the
feature vector from `prob = semantic_unit[-2]` and
`col_idx = self.indexer[tag_name]`, call the model and flag iff the output is
`< 0.5`.  A tag name absent from the indexer raises a KeyError (`none`); a
collection-shaped confidence field raises a shape error (`none`).  The
trained classifier is an external collaborator, injected as
`model : List ℚ → ℚ`; the indexer as an association list. -/
def ErrorDetectorFNN.eval (indexer : List (String × ℕ)) (model : List ℚ → ℚ) :
    SuPair → Option Bool :=
  fun p =>
    match p.1.conf with
    | Conf.scalar prob =>
      match List.lookup p.1.tag_name indexer with
      | none => none
      | some col_idx =>
        some (decide (model (mkFeature (indexer.length + 1) col_idx prob) < mkRat 1 2))
    | Conf.samples _ => none

/-- The closed set of detector variants (the spec's design note: tagged
variants behind one `detection` interface).  `eval_tf` is the per-call
ground-truth keyword of the simulated detector; threshold floats and the
FNN's indexer/model are the per-detector immutable configuration. -/
inductive Detector where
  | sim (eval_tf : Option (List Bool))
  | prob (prob_threshold : ℚ)
  | bayesDropout (stddev_threshold : ℚ)
  | fnn (indexer : List (String × ℕ)) (model : List ℚ → ℚ)

/-- Variant dispatch of the per-unit error predicate. -/
def detEval : Detector → SuPair → Option Bool
  | Detector.sim eval_tf => ErrorDetectorSim.eval eval_tf
  | Detector.prob t => ErrorDetectorProbability.eval t
  | Detector.bayesDropout t => ErrorDetectorBayesDropout.eval t
  | Detector.fnn indexer model => ErrorDetectorFNN.eval indexer model

/-- The loop shared verbatim by all four `detection` methods: iterate over
the segmented `(semantic_unit, pointer)` pairs in order; `continue` when
`pointer < start_pos`; evaluate the variant's error predicate (`none` = a
raised exception, which loses any pairs appended so far and propagates);
append the pair on an error; and when `bool_return_first` is set, return
right after the first appended pair. -/
def detectLoop (ev : SuPair → Option Bool) (start_pos : ℕ) (bool_return_first : Bool) :
    List SuPair → Option (List SuPair)
  | [] => some []
  | p :: rest =>
    if p.2 < start_pos then detectLoop ev start_pos bool_return_first rest
    else
      match ev p with
      | none => none
      | some flagged =>
        if flagged then
          if bool_return_first then some [p]
          else (detectLoop ev start_pos bool_return_first rest).map (fun l => p :: l)
        else detectLoop ev start_pos bool_return_first rest

/-- `detection(tag_seq, start_pos, bool_return_first, ...)`, generic in the
variant: the guard `if start_pos >= len(tag_seq): return []` short-circuits
before segmentation; otherwise the sequence is segmented by the external
collaborator `seg` (called once) and the shared loop runs. -/
def detectionOf {α : Type*} (d : Detector) (seg : List α → List SuPair)
    (tag_seq : List α) (start_pos : ℕ) (bool_return_first : Bool) :
    Option (List SuPair) :=
  if tag_seq.length ≤ start_pos then some []
  else detectLoop (detEval d) start_pos bool_return_first (seg tag_seq)

/-- `ErrorDetectorSim.detection`. -/
def ErrorDetectorSim.detection {α : Type*} (eval_tf : Option (List Bool))
    (seg : List α → List SuPair) (tag_seq : List α) (start_pos : ℕ)
    (bool_return_first : Bool) : Option (List SuPair) :=
  detectionOf (Detector.sim eval_tf) seg tag_seq start_pos bool_return_first

/-- `ErrorDetectorProbability.detection`. -/
def ErrorDetectorProbability.detection {α : Type*} (prob_threshold : ℚ)
    (seg : List α → List SuPair) (tag_seq : List α) (start_pos : ℕ)
    (bool_return_first : Bool) : Option (List SuPair) :=
  detectionOf (Detector.prob prob_threshold) seg tag_seq start_pos bool_return_first

/-- `ErrorDetectorBayesDropout.detection`. -/
def ErrorDetectorBayesDropout.detection {α : Type*} (stddev_threshold : ℚ)
    (seg : List α → List SuPair) (tag_seq : List α) (start_pos : ℕ)
    (bool_return_first : Bool) : Option (List SuPair) :=
  detectionOf (Detector.bayesDropout stddev_threshold) seg tag_seq start_pos
    bool_return_first

/-- `ErrorDetectorFNN.detection`. -/
def ErrorDetectorFNN.detection {α : Type*} (indexer : List (String × ℕ))
    (model : List ℚ → ℚ) (seg : List α → List SuPair) (tag_seq : List α)
    (start_pos : ℕ) (bool_return_first : Bool) : Option (List SuPair) :=
  detectionOf (Detector.fnn indexer model) seg tag_seq start_pos bool_return_first


/-! ## Unfolding equations for the detection loop -/

/-- A pair whose pointer precedes `start_pos` is skipped (`continue`). -/
theorem detectLoop_cons_skip {ev : SuPair → Option Bool} {sp : ℕ} {first : Bool}
    {p : SuPair} {rest : List SuPair} (hq : p.2 < sp) :
    detectLoop ev sp first (p :: rest) = detectLoop ev sp first rest := by
  simp [detectLoop, hq]

/-- A raised per-unit evaluation aborts the loop. -/
theorem detectLoop_cons_none {ev : SuPair → Option Bool} {sp : ℕ} {first : Bool}
    {p : SuPair} {rest : List SuPair} (hq : ¬ p.2 < sp) (hev : ev p = none) :
    detectLoop ev sp first (p :: rest) = none := by
  simp [detectLoop, hq, hev]

/-- A flagged pair is appended; with `bool_return_first` the loop returns it
alone at once. -/
theorem detectLoop_cons_flag {ev : SuPair → Option Bool} {sp : ℕ} {first : Bool}
    {p : SuPair} {rest : List SuPair} (hq : ¬ p.2 < sp) (hev : ev p = some true) :
    detectLoop ev sp first (p :: rest) =
      if first then some [p]
      else (detectLoop ev sp first rest).map (fun l => p :: l) := by
  simp [detectLoop, hq, hev]

/-- An unflagged pair is passed over. -/
theorem detectLoop_cons_ok {ev : SuPair → Option Bool} {sp : ℕ} {first : Bool}
    {p : SuPair} {rest : List SuPair} (hq : ¬ p.2 < sp) (hev : ev p = some false) :
    detectLoop ev sp first (p :: rest) = detectLoop ev sp first rest := by
  simp [detectLoop, hq, hev]

/-! ## Shared lemmas about the detection loop -/

/-- Every pair in a normally returned result has pointer `≥ start_pos`. -/
theorem detectLoop_mem_ge (ev : SuPair → Option Bool) (sp : ℕ) (first : Bool) :
    ∀ l r, detectLoop ev sp first l = some r → ∀ p ∈ r, sp ≤ p.2 := by
  intro l
  induction l with
  | nil =>
    intro r h p hp
    simp only [detectLoop, Option.some.injEq] at h
    subst h
    exact absurd hp (List.not_mem_nil p)
  | cons q rest ih =>
    intro r h p hp
    by_cases hq : q.2 < sp
    · rw [detectLoop_cons_skip hq] at h
      exact ih r h p hp
    · cases hev : ev q with
      | none => rw [detectLoop_cons_none hq hev] at h; cases h
      | some flagged =>
        cases flagged with
        | false =>
          rw [detectLoop_cons_ok hq hev] at h
          exact ih r h p hp
        | true =>
          rw [detectLoop_cons_flag hq hev] at h
          cases first with
          | true =>
            rw [if_pos rfl] at h
            injection h with h
            subst h
            rcases List.mem_singleton.mp hp with rfl
            exact le_of_not_lt hq
          | false =>
            rw [if_neg Bool.false_ne_true] at h
            rcases Option.map_eq_some'.mp h with ⟨r', hr', rfl⟩
            rcases List.mem_cons.mp hp with rfl | hp'
            · exact le_of_not_lt hq
            · exact ih r' hr' p hp'

/-- A normally returned result is a sublist of the segmentation output:
order is preserved and nothing is reported twice. -/
theorem detectLoop_sublist (ev : SuPair → Option Bool) (sp : ℕ) (first : Bool) :
    ∀ l r, detectLoop ev sp first l = some r → r.Sublist l := by
  intro l
  induction l with
  | nil =>
    intro r h
    simp only [detectLoop, Option.some.injEq] at h
    subst h
    exact List.nil_sublist []
  | cons q rest ih =>
    intro r h
    by_cases hq : q.2 < sp
    · rw [detectLoop_cons_skip hq] at h
      exact (ih r h).cons q
    · cases hev : ev q with
      | none => rw [detectLoop_cons_none hq hev] at h; cases h
      | some flagged =>
        cases flagged with
        | false =>
          rw [detectLoop_cons_ok hq hev] at h
          exact (ih r h).cons q
        | true =>
          rw [detectLoop_cons_flag hq hev] at h
          cases first with
          | true =>
            rw [if_pos rfl] at h
            injection h with h
            subst h
            exact (List.nil_sublist rest).cons₂ q
          | false =>
            rw [if_neg Bool.false_ne_true] at h
            rcases Option.map_eq_some'.mp h with ⟨r', hr', rfl⟩
            exact (ih r' hr').cons₂ q

/-- With `bool_return_first = False` and an error predicate that evaluates
normally (to `f p`) on every examined pair, the loop is a filter. -/
theorem detectLoop_eq_filter (ev : SuPair → Option Bool) (f : SuPair → Bool) (sp : ℕ) :
    ∀ l : List SuPair, (∀ p ∈ l, ev p = some (f p)) →
      detectLoop ev sp false l =
        some (l.filter (fun p => !decide (p.2 < sp) && f p)) := by
  intro l
  induction l with
  | nil => intro _; rfl
  | cons q rest ih =>
    intro h
    have hq' : ev q = some (f q) := h q (List.mem_cons_self q rest)
    have ih' := ih (fun p hp => h p (List.mem_cons_of_mem q hp))
    by_cases hsp : q.2 < sp
    · rw [detectLoop_cons_skip hsp, ih', List.filter_cons]
      simp [hsp]
    · cases hf : f q with
      | false =>
        rw [hf] at hq'
        rw [detectLoop_cons_ok hsp hq', ih', List.filter_cons]
        simp [hsp, hf]
      | true =>
        rw [hf] at hq'
        rw [detectLoop_cons_flag hsp hq', if_neg Bool.false_ne_true, ih',
          List.filter_cons]
        simp [hsp, hf]

/-- If the full run returns normally, the `bool_return_first = True` run
returns its length-one prefix. -/
theorem detectLoop_first_take (ev : SuPair → Option Bool) (sp : ℕ) :
    ∀ l r, detectLoop ev sp false l = some r →
      detectLoop ev sp true l = some (r.take 1) := by
  intro l
  induction l with
  | nil =>
    intro r h
    simp only [detectLoop, Option.some.injEq] at h
    subst h
    rfl
  | cons q rest ih =>
    intro r h
    by_cases hq : q.2 < sp
    · rw [detectLoop_cons_skip hq] at h
      rw [detectLoop_cons_skip hq]
      exact ih r h
    · cases hev : ev q with
      | none => rw [detectLoop_cons_none hq hev] at h; cases h
      | some flagged =>
        cases flagged with
        | false =>
          rw [detectLoop_cons_ok hq hev] at h
          rw [detectLoop_cons_ok hq hev]
          exact ih r h
        | true =>
          rw [detectLoop_cons_flag hq hev, if_neg Bool.false_ne_true] at h
          rw [detectLoop_cons_flag hq hev, if_pos rfl]
          rcases Option.map_eq_some'.mp h with ⟨r', _, rfl⟩
          rfl

/-- A raised per-unit evaluation on any examined pair makes the full
(`bool_return_first = False`) run raise: no partial result survives. -/
theorem detectLoop_none (ev : SuPair → Option Bool) (sp : ℕ) :
    ∀ l, (∃ p ∈ l, sp ≤ p.2 ∧ ev p = none) →
      detectLoop ev sp false l = none := by
  intro l
  induction l with
  | nil => rintro ⟨p, hp, _⟩; exact absurd hp (List.not_mem_nil p)
  | cons q rest ih =>
    rintro ⟨p, hp, hge, hev⟩
    by_cases hq : q.2 < sp
    · rw [detectLoop_cons_skip hq]
      rcases List.mem_cons.mp hp with rfl | hp'
      · exact absurd hq (not_lt_of_le hge)
      · exact ih ⟨p, hp', hge, hev⟩
    · rcases List.mem_cons.mp hp with rfl | hp'
      · exact detectLoop_cons_none hq hev
      · cases hevq : ev q with
        | none => exact detectLoop_cons_none hq hevq
        | some flagged =>
          cases flagged with
          | false =>
            rw [detectLoop_cons_ok hq hevq]
            exact ih ⟨p, hp', hge, hev⟩
          | true =>
            rw [detectLoop_cons_flag hq hevq, if_neg Bool.false_ne_true,
              ih ⟨p, hp', hge, hev⟩]
            rfl

/-- If no examined pair is flagged (all evaluate normally to `false`), the
loop returns the empty list, whatever `bool_return_first` is. -/
theorem detectLoop_no_error (ev : SuPair → Option Bool) (sp : ℕ) (first : Bool) :
    ∀ l, (∀ p ∈ l, ¬ p.2 < sp → ev p = some false) →
      detectLoop ev sp first l = some [] := by
  intro l
  induction l with
  | nil => intro _; rfl
  | cons q rest ih =>
    intro h
    have ih' := ih (fun p hp => h p (List.mem_cons_of_mem q hp))
    by_cases hq : q.2 < sp
    · rw [detectLoop_cons_skip hq]; exact ih'
    · rw [detectLoop_cons_ok hq (h q (List.mem_cons_self q rest) hq)]
      exact ih'

/-! ## The `np.std` bridge and the feature vector -/

/-- The decided comparison `npStdGT` is exactly the real-number statement
`np.std(conf) > threshold`, i.e. `threshold < √(variance)`. -/
theorem npStdGT_iff_sqrt (c : Conf) (t : ℚ) :
    npStdGT c t = true ↔ (t : ℝ) < Real.sqrt ((confVar c : ℚ) : ℝ) := by
  unfold npStdGT
  rw [Bool.or_eq_true, decide_eq_true_eq, decide_eq_true_eq]
  constructor
  · rintro (ht | hv)
    · exact lt_of_lt_of_le (by exact_mod_cast ht) (Real.sqrt_nonneg _)
    · by_cases ht : t < 0
      · exact lt_of_lt_of_le (by exact_mod_cast ht) (Real.sqrt_nonneg _)
      · have h0 : (0 : ℝ) ≤ (t : ℝ) := by exact_mod_cast not_lt.mp ht
        rw [Real.lt_sqrt h0]
        exact_mod_cast hv
  · intro h
    by_cases ht : t < 0
    · exact Or.inl ht
    · have h0 : (0 : ℝ) ≤ (t : ℝ) := by exact_mod_cast not_lt.mp ht
      rw [Real.lt_sqrt h0] at h
      exact Or.inr (by exact_mod_cast h)

/-- Pointwise description of the feature vector: for a valid column index
(one of the `len(indexer)` one-hot columns, which excludes the trailing
probability column), slot `col_idx` is `1`, the last slot is `prob`, and
every other slot is `0`. -/
theorem mkFeature_getElem (input_size col_idx : ℕ) (prob : ℚ) (i : ℕ)
    (hc : col_idx + 1 < input_size) (hi : i < input_size) :
    (mkFeature input_size col_idx prob)[i]? =
      some (if i = col_idx then 1 else if i = input_size - 1 then prob else 0) := by
  unfold mkFeature
  by_cases h1 : i = col_idx
  · subst h1
    rw [if_pos rfl]
    have hlen : i < (((List.replicate input_size (0 : ℚ)).set (input_size - 1) prob)).length := by
      simp [Nat.lt_of_succ_lt hc]
    exact List.getElem?_set_eq_of_lt 1 hlen
  · rw [if_neg h1, List.getElem?_set_ne (fun h => h1 h.symm)]
    by_cases h2 : i = input_size - 1
    · subst h2
      rw [if_pos rfl]
      have hlen : input_size - 1 < (List.replicate input_size (0 : ℚ)).length := by
        simp [Nat.sub_lt (Nat.lt_of_le_of_lt (Nat.zero_le _) hc) Nat.one_pos]
      exact List.getElem?_set_eq_of_lt prob hlen
    · rw [if_neg h2, List.getElem?_set_ne (fun h => h2 h.symm)]
      exact List.getElem?_replicate_of_lt hi

/-! ## Claims -/

/-- C1: for every detector variant, every sequence and every `start_pos`,
each pair in a returned detection result has `pointer ≥ start_pos`; the
result is a sublist of the segmentation output (so it appears in
segmentation order), and whenever the segmentation pointers are
non-decreasing so are the returned pointers. -/
theorem C1_pointer_invariant {α : Type*} (d : Detector) (seg : List α → List SuPair)
    (tag_seq : List α) (start_pos : ℕ) (first : Bool) (r : List SuPair)
    (h : detectionOf d seg tag_seq start_pos first = some r) :
    (∀ p ∈ r, start_pos ≤ p.2) ∧ r.Sublist (seg tag_seq) ∧
      (List.Pairwise (fun a b => a ≤ b) ((seg tag_seq).map Prod.snd) →
        List.Pairwise (fun a b => a ≤ b) (r.map Prod.snd)) := by
  unfold detectionOf at h
  by_cases hlen : tag_seq.length ≤ start_pos
  · rw [if_pos hlen] at h
    injection h with h
    subst h
    exact ⟨fun p hp => absurd hp (List.not_mem_nil p), List.nil_sublist _,
      fun _ => List.Pairwise.nil⟩
  · rw [if_neg hlen] at h
    refine ⟨detectLoop_mem_ge _ _ _ _ r h, detectLoop_sublist _ _ _ _ r h, ?_⟩
    intro hpw
    exact hpw.sublist ((detectLoop_sublist _ _ _ _ r h).map Prod.snd)

/-- Witness for C1 at a concrete input: probability detector, threshold 0.5,
two units of probabilities 0.4 and 0.9 at pointers 0 and 1. -/
theorem C1_pointer_invariant_witness :
    detectionOf (Detector.prob (mkRat 1 2))
        (fun _ => [(⟨"a", Conf.scalar (mkRat 2 5)⟩, 0), (⟨"b", Conf.scalar (mkRat 9 10)⟩, 1)])
        ([0, 1] : List ℕ) 0 false = some [(⟨"a", Conf.scalar (mkRat 2 5)⟩, 0)] ∧
      ((∀ p ∈ [((⟨"a", Conf.scalar (mkRat 2 5)⟩ : SemanticUnit), 0)], 0 ≤ p.2) ∧
        List.Sublist [((⟨"a", Conf.scalar (mkRat 2 5)⟩ : SemanticUnit), 0)]
          [(⟨"a", Conf.scalar (mkRat 2 5)⟩, 0), (⟨"b", Conf.scalar (mkRat 9 10)⟩, 1)] ∧
        (List.Pairwise (fun a b => a ≤ b)
            (List.map Prod.snd
              [((⟨"a", Conf.scalar (mkRat 2 5)⟩ : SemanticUnit), 0),
                (⟨"b", Conf.scalar (mkRat 9 10)⟩, 1)]) →
          List.Pairwise (fun a b => a ≤ b)
            (List.map Prod.snd [((⟨"a", Conf.scalar (mkRat 2 5)⟩ : SemanticUnit), 0)]))) :=
  ⟨by decide,
    C1_pointer_invariant (Detector.prob (mkRat 1 2))
      (fun _ => [(⟨"a", Conf.scalar (mkRat 2 5)⟩, 0), (⟨"b", Conf.scalar (mkRat 9 10)⟩, 1)])
      ([0, 1] : List ℕ) 0 false [(⟨"a", Conf.scalar (mkRat 2 5)⟩, 0)] (by decide)⟩

/-- C6: for every detector variant, `start_pos ≥ len(tag_seq)` returns the
empty list at once, before segmentation — the segmenter `seg` is an
arbitrary bound variable never applied in the conclusion — and an
out-of-range `start_pos` (or an empty sequence) returns normally instead
of raising. -/
theorem C6_short_circuit {α : Type*} (d : Detector) (seg : List α → List SuPair)
    (tag_seq : List α) (start_pos : ℕ) (first : Bool)
    (h : tag_seq.length ≤ start_pos) :
    detectionOf d seg tag_seq start_pos first = some [] := by
  unfold detectionOf
  rw [if_pos h]

/-- Witness for C6 at a concrete input: the simulated detector on the empty
sequence, with no ground truth supplied at all. -/
theorem C6_short_circuit_witness :
    ([] : List ℕ).length ≤ 0 ∧
      detectionOf (Detector.sim none) (fun _ => [(⟨"a", Conf.scalar 1⟩, 0)])
        ([] : List ℕ) 0 false = some [] :=
  ⟨Nat.le_refl 0,
    C6_short_circuit (Detector.sim none) (fun _ => [(⟨"a", Conf.scalar 1⟩, 0)])
      [] 0 false (Nat.le_refl 0)⟩

/-- C7: for every detector variant and input on which the full run returns
normally, the `return_first_only` run returns exactly the length-one prefix
of the full result, and it is empty exactly when the full result is. -/
theorem C7_first_prefix {α : Type*} (d : Detector) (seg : List α → List SuPair)
    (tag_seq : List α) (start_pos : ℕ) (r : List SuPair)
    (h : detectionOf d seg tag_seq start_pos false = some r) :
    detectionOf d seg tag_seq start_pos true = some (r.take 1) ∧
      (r.take 1 = [] ↔ r = []) := by
  constructor
  · unfold detectionOf at h ⊢
    by_cases hlen : tag_seq.length ≤ start_pos
    · rw [if_pos hlen] at h ⊢
      injection h with h
      subst h
      rfl
    · rw [if_neg hlen] at h ⊢
      exact detectLoop_first_take _ _ _ r h
  · cases r <;> simp

/-- Witness for C7 at a concrete input: probability detector flagging two of
three units; the first-only run returns just the earlier one. -/
theorem C7_first_prefix_witness :
    detectionOf (Detector.prob (mkRat 1 2))
        (fun _ => [(⟨"a", Conf.scalar (mkRat 2 5)⟩, 0), (⟨"b", Conf.scalar (mkRat 1 10)⟩, 1)])
        ([0, 1] : List ℕ) 0 false =
      some [(⟨"a", Conf.scalar (mkRat 2 5)⟩, 0), (⟨"b", Conf.scalar (mkRat 1 10)⟩, 1)] ∧
      (detectionOf (Detector.prob (mkRat 1 2))
          (fun _ => [(⟨"a", Conf.scalar (mkRat 2 5)⟩, 0), (⟨"b", Conf.scalar (mkRat 1 10)⟩, 1)])
          ([0, 1] : List ℕ) 0 true =
        some (List.take 1
          [((⟨"a", Conf.scalar (mkRat 2 5)⟩ : SemanticUnit), 0),
            (⟨"b", Conf.scalar (mkRat 1 10)⟩, 1)]) ∧
        (List.take 1
            [((⟨"a", Conf.scalar (mkRat 2 5)⟩ : SemanticUnit), 0),
              (⟨"b", Conf.scalar (mkRat 1 10)⟩, 1)] = [] ↔
          [((⟨"a", Conf.scalar (mkRat 2 5)⟩ : SemanticUnit), 0),
            (⟨"b", Conf.scalar (mkRat 1 10)⟩, 1)] = [])) :=
  ⟨by decide,
    C7_first_prefix (Detector.prob (mkRat 1 2))
      (fun _ => [(⟨"a", Conf.scalar (mkRat 2 5)⟩, 0), (⟨"b", Conf.scalar (mkRat 1 10)⟩, 1)])
      ([0, 1] : List ℕ) 0
      [(⟨"a", Conf.scalar (mkRat 2 5)⟩, 0), (⟨"b", Conf.scalar (mkRat 1 10)⟩, 1)] (by decide)⟩

/-- C9: detection is a pure function of its inputs and of the collaborators'
responses: any two segmenters that answer identically on the given sequence
(in particular, the same unmutated segmenter asked twice) produce identical
detection output, for every variant; the embedding is functional, so
neither call can mutate the sequence or the detector configuration. -/
theorem C9_deterministic {α : Type*} (d : Detector) (seg1 seg2 : List α → List SuPair)
    (tag_seq : List α) (start_pos : ℕ) (first : Bool)
    (h : seg1 tag_seq = seg2 tag_seq) :
    detectionOf d seg1 tag_seq start_pos first =
      detectionOf d seg2 tag_seq start_pos first := by
  unfold detectionOf
  rw [h]

/-- Witness for C9 at a concrete input: two syntactically different
segmenters agreeing on the given sequence. -/
theorem C9_deterministic_witness :
    (fun l : List ℕ => [((⟨"a", Conf.scalar (mkRat 2 5)⟩ : SemanticUnit), l.length)]) [0, 1] =
      (fun _ : List ℕ => [((⟨"a", Conf.scalar (mkRat 2 5)⟩ : SemanticUnit), 2)]) [0, 1] ∧
      detectionOf (Detector.prob (mkRat 1 2))
          (fun l : List ℕ => [(⟨"a", Conf.scalar (mkRat 2 5)⟩, l.length)]) [0, 1] 0 false =
        detectionOf (Detector.prob (mkRat 1 2))
          (fun _ : List ℕ => [(⟨"a", Conf.scalar (mkRat 2 5)⟩, 2)]) [0, 1] 0 false :=
  ⟨by decide,
    C9_deterministic (Detector.prob (mkRat 1 2))
      (fun l : List ℕ => [(⟨"a", Conf.scalar (mkRat 2 5)⟩, l.length)])
      (fun _ : List ℕ => [(⟨"a", Conf.scalar (mkRat 2 5)⟩, 2)]) [0, 1] 0 false (by decide)⟩

/-- C2: the probability-threshold detector flags an examined unit
(pointer ≥ start_pos) iff its recorded scalar probability is strictly below
`prob_threshold`; with threshold 0 nothing is flagged when all probabilities
are ≥ 0; and on probabilities 0.9, 0.4, 0.6 (here 9/10, 2/5, 3/5) with
threshold 0.5 exactly the 0.4 unit is flagged. -/
theorem C2_prob_threshold :
    (∀ {α : Type} (θ : ℚ) (seg : List α → List SuPair) (ts : List α) (sp : ℕ),
        sp < ts.length →
        (∀ p ∈ seg ts, ∃ q, p.1.conf = Conf.scalar q) →
        ∃ r, ErrorDetectorProbability.detection θ seg ts sp false = some r ∧
          ∀ p q, p.1.conf = Conf.scalar q →
            (p ∈ r ↔ p ∈ seg ts ∧ sp ≤ p.2 ∧ q < θ)) ∧
    (∀ {α : Type} (seg : List α → List SuPair) (ts : List α) (sp : ℕ) (first : Bool),
        (∀ p ∈ seg ts, ∃ q, p.1.conf = Conf.scalar q ∧ 0 ≤ q) →
        ErrorDetectorProbability.detection 0 seg ts sp first = some []) ∧
    ErrorDetectorProbability.detection (mkRat 1 2)
        (fun _ => [(⟨"u1", Conf.scalar (mkRat 9 10)⟩, 0),
                   (⟨"u2", Conf.scalar (mkRat 2 5)⟩, 1),
                   (⟨"u3", Conf.scalar (mkRat 3 5)⟩, 2)])
        ([0, 1, 2] : List ℕ) 0 false =
      some [(⟨"u2", Conf.scalar (mkRat 2 5)⟩, 1)] := by
  refine ⟨?_, ?_, by decide⟩
  · intro α θ seg ts sp hsp hsc
    have hev : ∀ p ∈ seg ts,
        ErrorDetectorProbability.eval θ p =
          some ((fun p : SuPair =>
            match p.1.conf with
            | Conf.scalar q => decide (q < θ)
            | Conf.samples _ => false) p) := by
      intro p hp
      rcases hsc p hp with ⟨q, hq⟩
      simp [ErrorDetectorProbability.eval, hq]
    have hres := detectLoop_eq_filter (ErrorDetectorProbability.eval θ) _ sp (seg ts) hev
    have hdet : ErrorDetectorProbability.detection θ seg ts sp false =
        some (List.filter (fun p : SuPair => !decide (p.2 < sp) &&
          match p.1.conf with
          | Conf.scalar q => decide (q < θ)
          | Conf.samples _ => false) (seg ts)) := by
      unfold ErrorDetectorProbability.detection detectionOf
      rw [if_neg (not_le.mpr hsp)]
      exact hres
    refine ⟨_, hdet, ?_⟩
    intro p q hpq
    rw [List.mem_filter]
    simp [hpq, not_lt, and_assoc]
  · intro α seg ts sp first hsc
    unfold ErrorDetectorProbability.detection detectionOf
    by_cases hlen : ts.length ≤ sp
    · rw [if_pos hlen]
    · rw [if_neg hlen]
      apply detectLoop_no_error
      intro p hp _
      rcases hsc p hp with ⟨q, hq, hq0⟩
      show ErrorDetectorProbability.eval 0 p = some false
      simp [ErrorDetectorProbability.eval, hq, not_lt.mpr hq0]

/-- Witness for C2 on the spec's example probabilities 0.9, 0.4, 0.6 with
threshold 0.5. -/
theorem C2_prob_threshold_witness :
    (0 : ℕ) < ([0, 1, 2] : List ℕ).length ∧
      (∀ p ∈ [((⟨"u1", Conf.scalar (mkRat 9 10)⟩ : SemanticUnit), 0),
          (⟨"u2", Conf.scalar (mkRat 2 5)⟩, 1),
          (⟨"u3", Conf.scalar (mkRat 3 5)⟩, 2)], ∃ q, p.1.conf = Conf.scalar q) ∧
      ∃ r, ErrorDetectorProbability.detection (mkRat 1 2)
          (fun _ : List ℕ =>
            [(⟨"u1", Conf.scalar (mkRat 9 10)⟩, 0),
              (⟨"u2", Conf.scalar (mkRat 2 5)⟩, 1),
              (⟨"u3", Conf.scalar (mkRat 3 5)⟩, 2)]) [0, 1, 2] 0 false = some r ∧
        ∀ p q, p.1.conf = Conf.scalar q →
          (p ∈ r ↔ p ∈ [((⟨"u1", Conf.scalar (mkRat 9 10)⟩ : SemanticUnit), 0),
              (⟨"u2", Conf.scalar (mkRat 2 5)⟩, 1),
              (⟨"u3", Conf.scalar (mkRat 3 5)⟩, 2)] ∧ 0 ≤ p.2 ∧ q < mkRat 1 2) :=
  ⟨by decide,
    by
      intro p hp
      simp only [List.mem_cons, List.not_mem_nil, or_false] at hp
      rcases hp with rfl | rfl | rfl <;> exact ⟨_, rfl⟩,
    C2_prob_threshold.1 (mkRat 1 2) _ [0, 1, 2] 0 (by decide)
      (by
        intro p hp
        simp only [List.mem_cons, List.not_mem_nil, or_false] at hp
        rcases hp with rfl | rfl | rfl <;> exact ⟨_, rfl⟩)⟩

/-- C3: the Bayesian-dropout detector flags an examined unit
(pointer ≥ start_pos) iff the population standard deviation of its recorded
confidence samples strictly exceeds `stddev_threshold` (a standard deviation
exactly equal to the threshold is not flagged); on samples
[[0.1,0.1,0.1], [0.9,0.1,0.5]] with threshold 0.1 exactly the second unit is
flagged. -/
theorem C3_bayes_stddev :
    (∀ {α : Type} (t : ℚ) (seg : List α → List SuPair) (ts : List α) (sp : ℕ),
        sp < ts.length →
        ∃ r, ErrorDetectorBayesDropout.detection t seg ts sp false = some r ∧
          ∀ p xs, p.1.conf = Conf.samples xs →
            (p ∈ r ↔ p ∈ seg ts ∧ sp ≤ p.2 ∧
              (t : ℝ) < Real.sqrt ((listVar xs : ℚ) : ℝ))) ∧
    ErrorDetectorBayesDropout.detection (mkRat 1 10)
        (fun _ => [(⟨"u1", Conf.samples [mkRat 1 10, mkRat 1 10, mkRat 1 10]⟩, 0),
                   (⟨"u2", Conf.samples [mkRat 9 10, mkRat 1 10, mkRat 1 2]⟩, 1)])
        ([0, 1] : List ℕ) 0 false =
      some [(⟨"u2", Conf.samples [mkRat 9 10, mkRat 1 10, mkRat 1 2]⟩, 1)] := by
  constructor
  · intro α t seg ts sp hsp
    have hres := detectLoop_eq_filter (ErrorDetectorBayesDropout.eval t)
      (fun p : SuPair => npStdGT p.1.conf t) sp (seg ts) (fun p _ => rfl)
    have hdet : ErrorDetectorBayesDropout.detection t seg ts sp false =
        some (List.filter
          (fun p : SuPair => !decide (p.2 < sp) && npStdGT p.1.conf t) (seg ts)) := by
      unfold ErrorDetectorBayesDropout.detection detectionOf
      rw [if_neg (not_le.mpr hsp)]
      exact hres
    refine ⟨_, hdet, ?_⟩
    intro p xs hpx
    rw [List.mem_filter]
    simp [hpx, not_lt, and_assoc, npStdGT_iff_sqrt, confVar]
  · have h1 : npStdGT (Conf.samples [mkRat 1 10, mkRat 1 10, mkRat 1 10])
        (mkRat 1 10) = false := by
      simp only [npStdGT, confVar, listVar, listMean, Rat.mkRat_eq_divInt,
        Rat.divInt_eq_div, List.map_cons, List.map_nil, List.sum_cons,
        List.sum_nil, List.length_cons, List.length_nil, Bool.or_eq_false_iff,
        decide_eq_false_iff_not, not_lt]
      norm_num
    have h2 : npStdGT (Conf.samples [mkRat 9 10, mkRat 1 10, mkRat 1 2])
        (mkRat 1 10) = true := by
      simp only [npStdGT, confVar, listVar, listMean, Rat.mkRat_eq_divInt,
        Rat.divInt_eq_div, List.map_cons, List.map_nil, List.sum_cons,
        List.sum_nil, List.length_cons, List.length_nil, Bool.or_eq_true,
        decide_eq_true_eq]
      right
      norm_num
    have hev1 : detEval (Detector.bayesDropout (mkRat 1 10))
        ((⟨"u1", Conf.samples [mkRat 1 10, mkRat 1 10, mkRat 1 10]⟩ : SemanticUnit), 0) =
        some false := by
      show ErrorDetectorBayesDropout.eval _ _ = _
      rw [ErrorDetectorBayesDropout.eval]
      rw [h1]
    have hev2 : detEval (Detector.bayesDropout (mkRat 1 10))
        ((⟨"u2", Conf.samples [mkRat 9 10, mkRat 1 10, mkRat 1 2]⟩ : SemanticUnit), 1) =
        some true := by
      show ErrorDetectorBayesDropout.eval _ _ = _
      rw [ErrorDetectorBayesDropout.eval]
      rw [h2]
    unfold ErrorDetectorBayesDropout.detection detectionOf
    rw [if_neg (by decide)]
    rw [detectLoop_cons_ok (by decide) hev1,
      detectLoop_cons_flag (by decide) hev2, if_neg Bool.false_ne_true]
    rfl

/-- Witness for C3 on the spec's example samples with threshold 0.1. -/
theorem C3_bayes_stddev_witness :
    (0 : ℕ) < ([0, 1] : List ℕ).length ∧
      ∃ r, ErrorDetectorBayesDropout.detection (mkRat 1 10)
          (fun _ : List ℕ =>
            [(⟨"u1", Conf.samples [mkRat 1 10, mkRat 1 10, mkRat 1 10]⟩, 0),
              (⟨"u2", Conf.samples [mkRat 9 10, mkRat 1 10, mkRat 1 2]⟩, 1)])
          [0, 1] 0 false = some r ∧
        ∀ p xs, p.1.conf = Conf.samples xs →
          (p ∈ r ↔
            p ∈ [((⟨"u1", Conf.samples [mkRat 1 10, mkRat 1 10, mkRat 1 10]⟩ : SemanticUnit), 0),
                (⟨"u2", Conf.samples [mkRat 9 10, mkRat 1 10, mkRat 1 2]⟩, 1)] ∧
              0 ≤ p.2 ∧ ((mkRat 1 10 : ℚ) : ℝ) < Real.sqrt ((listVar xs : ℚ) : ℝ)) :=
  ⟨by decide,
    C3_bayes_stddev.1 (mkRat 1 10)
      (fun _ : List ℕ =>
        [(⟨"u1", Conf.samples [mkRat 1 10, mkRat 1 10, mkRat 1 10]⟩, 0),
          (⟨"u2", Conf.samples [mkRat 9 10, mkRat 1 10, mkRat 1 2]⟩, 1)])
      [0, 1] 0 (by decide)⟩

/-- C5: the simulated/oracle detector flags an examined unit
(pointer ≥ start_pos) iff `eval_tf[pointer]` is false, regardless of the
unit's confidence field; on `eval_tf = [True, False, True]` aligned to three
units, exactly the middle unit is flagged (here the middle unit carries a
high probability 0.9 and the unflagged third a low one, showing the
probability field is ignored). -/
theorem C5_sim_oracle :
    (∀ {α : Type} (tf : List Bool) (seg : List α → List SuPair) (ts : List α) (sp : ℕ),
        sp < ts.length →
        (∀ p ∈ seg ts, p.2 < tf.length) →
        ∃ r, ErrorDetectorSim.detection (some tf) seg ts sp false = some r ∧
          ∀ p, p ∈ r ↔ p ∈ seg ts ∧ sp ≤ p.2 ∧ tf[p.2]? = some false) ∧
    ErrorDetectorSim.detection (some [true, false, true])
        (fun _ => [(⟨"u1", Conf.scalar (mkRat 9 10)⟩, 0),
                   (⟨"u2", Conf.scalar (mkRat 9 10)⟩, 1),
                   (⟨"u3", Conf.scalar (mkRat 1 10)⟩, 2)])
        ([0, 1, 2] : List ℕ) 0 false =
      some [(⟨"u2", Conf.scalar (mkRat 9 10)⟩, 1)] := by
  constructor
  · intro α tf seg ts sp hsp hptr
    have hev : ∀ p ∈ seg ts,
        ErrorDetectorSim.eval (some tf) p =
          some ((fun p : SuPair => !(tf.getD p.2 true)) p) := by
      intro p hp
      have hb := hptr p hp
      simp [ErrorDetectorSim.eval, evalTfGet, List.getElem?_eq_getElem hb,
        List.getD_eq_getElem?_getD]
    have hres := detectLoop_eq_filter (ErrorDetectorSim.eval (some tf)) _ sp (seg ts) hev
    have hdet : ErrorDetectorSim.detection (some tf) seg ts sp false =
        some (List.filter
          (fun p : SuPair => !decide (p.2 < sp) && !(tf.getD p.2 true)) (seg ts)) := by
      unfold ErrorDetectorSim.detection detectionOf
      rw [if_neg (not_le.mpr hsp)]
      exact hres
    refine ⟨_, hdet, ?_⟩
    intro p
    rw [List.mem_filter]
    by_cases hp : p ∈ seg ts
    · have hb := hptr p hp
      simp [hp, not_lt, List.getD_eq_getElem?_getD, List.getElem?_eq_getElem hb]
    · simp [hp]
  · decide

/-- Witness for C5 on the spec's example ground truth [True, False, True]. -/
theorem C5_sim_oracle_witness :
    (0 : ℕ) < ([0, 1, 2] : List ℕ).length ∧
      (∀ p ∈ [((⟨"u1", Conf.scalar (mkRat 9 10)⟩ : SemanticUnit), 0),
          (⟨"u2", Conf.scalar (mkRat 9 10)⟩, 1),
          (⟨"u3", Conf.scalar (mkRat 1 10)⟩, 2)], p.2 < ([true, false, true] : List Bool).length) ∧
      ∃ r, ErrorDetectorSim.detection (some [true, false, true])
          (fun _ : List ℕ =>
            [(⟨"u1", Conf.scalar (mkRat 9 10)⟩, 0),
              (⟨"u2", Conf.scalar (mkRat 9 10)⟩, 1),
              (⟨"u3", Conf.scalar (mkRat 1 10)⟩, 2)]) [0, 1, 2] 0 false = some r ∧
        ∀ p, p ∈ r ↔
          p ∈ [((⟨"u1", Conf.scalar (mkRat 9 10)⟩ : SemanticUnit), 0),
              (⟨"u2", Conf.scalar (mkRat 9 10)⟩, 1),
              (⟨"u3", Conf.scalar (mkRat 1 10)⟩, 2)] ∧ 0 ≤ p.2 ∧
            ([true, false, true] : List Bool)[p.2]? = some false :=
  ⟨by decide, by decide,
    C5_sim_oracle.1 [true, false, true]
      (fun _ : List ℕ =>
        [(⟨"u1", Conf.scalar (mkRat 9 10)⟩, 0),
          (⟨"u2", Conf.scalar (mkRat 9 10)⟩, 1),
          (⟨"u3", Conf.scalar (mkRat 1 10)⟩, 2)])
      [0, 1, 2] 0 (by decide) (by decide)⟩

/-- C10: with the ground truth omitted (`eval_tf = None`), the simulated
detector still returns the empty list whenever no segmented unit is
examined — both when `start_pos ≥ len(tag_seq)` (short-circuit before any
lookup) and when every segmented pointer is `< start_pos` (every pair is
skipped before the lookup); conversely, as soon as some segmented unit has
pointer `≥ start_pos` (with `start_pos < len(tag_seq)`), the `eval_tf`
lookup is reached and the missing ground truth raises. -/
theorem C10_sim_eval_tf_unreachable :
    (∀ {α : Type} (seg : List α → List SuPair) (ts : List α) (sp : ℕ) (first : Bool),
        ts.length ≤ sp →
        ErrorDetectorSim.detection none seg ts sp first = some []) ∧
    (∀ {α : Type} (seg : List α → List SuPair) (ts : List α) (sp : ℕ) (first : Bool),
        (∀ p ∈ seg ts, p.2 < sp) →
        ErrorDetectorSim.detection none seg ts sp first = some []) ∧
    (∀ {α : Type} (seg : List α → List SuPair) (ts : List α) (sp : ℕ),
        sp < ts.length → (∃ p ∈ seg ts, sp ≤ p.2) →
        ErrorDetectorSim.detection none seg ts sp false = none) := by
  refine ⟨?_, ?_, ?_⟩
  · intro α seg ts sp first h
    unfold ErrorDetectorSim.detection detectionOf
    rw [if_pos h]
  · intro α seg ts sp first h
    unfold ErrorDetectorSim.detection detectionOf
    by_cases hlen : ts.length ≤ sp
    · rw [if_pos hlen]
    · rw [if_neg hlen]
      apply detectLoop_no_error
      intro p hp hnot
      exact absurd (h p hp) hnot
  · intro α seg ts sp hsp hbad
    unfold ErrorDetectorSim.detection detectionOf
    rw [if_neg (not_le.mpr hsp)]
    apply detectLoop_none
    rcases hbad with ⟨p, hp, hge⟩
    exact ⟨p, hp, hge, rfl⟩

/-- Witness for C10: one unit at pointer 0, no ground truth; examined, the
lookup raises; with `start_pos` past it, nothing is examined and the call
returns the empty list. -/
theorem C10_sim_eval_tf_unreachable_witness :
    (0 : ℕ) < ([5] : List ℕ).length ∧
      (∃ p ∈ [((⟨"u1", Conf.scalar (mkRat 9 10)⟩ : SemanticUnit), 0)], 0 ≤ p.2) ∧
      ErrorDetectorSim.detection none
        (fun _ : List ℕ => [(⟨"u1", Conf.scalar (mkRat 9 10)⟩, 0)]) [5] 0 false = none :=
  ⟨by decide,
    ⟨(⟨"u1", Conf.scalar (mkRat 9 10)⟩, 0), List.mem_singleton_self _, Nat.le_refl 0⟩,
    C10_sim_eval_tf_unreachable.2.2
      (fun _ : List ℕ => [(⟨"u1", Conf.scalar (mkRat 9 10)⟩, 0)]) [5] 0 (by decide)
      ⟨(⟨"u1", Conf.scalar (mkRat 9 10)⟩, 0), List.mem_singleton_self _, Nat.le_refl 0⟩⟩

/-- C4: for each unit the FNN detector examines, the feature vector of width
`len(indexer) + 1` is zero everywhere except the slot `indexer[tag_name]`
(set to 1, one-hot) and the trailing slot (set to the unit's recorded
probability); the unit is flagged iff the classifier output on that vector
is strictly below 0.5 (an output of exactly 0.5 is not flagged). -/
theorem C4_fnn_feature_and_threshold :
    (∀ (input_size col_idx : ℕ) (prob : ℚ) (i : ℕ),
        col_idx + 1 < input_size → i < input_size →
        (mkFeature input_size col_idx prob)[i]? =
          some (if i = col_idx then 1 else if i = input_size - 1 then prob else 0)) ∧
    (∀ {α : Type} (indexer : List (String × ℕ)) (model : List ℚ → ℚ)
        (seg : List α → List SuPair) (ts : List α) (sp : ℕ),
        sp < ts.length →
        (∀ p ∈ seg ts, ∃ q c, p.1.conf = Conf.scalar q ∧
          List.lookup p.1.tag_name indexer = some c) →
        ∃ r, ErrorDetectorFNN.detection indexer model seg ts sp false = some r ∧
          ∀ p q c, p.1.conf = Conf.scalar q →
            List.lookup p.1.tag_name indexer = some c →
            (p ∈ r ↔ p ∈ seg ts ∧ sp ≤ p.2 ∧
              model (mkFeature (indexer.length + 1) c q) < mkRat 1 2)) := by
  constructor
  · exact mkFeature_getElem
  · intro α indexer model seg ts sp hsp hwf
    have hev : ∀ p ∈ seg ts,
        ErrorDetectorFNN.eval indexer model p =
          some ((fun p : SuPair =>
            match p.1.conf, List.lookup p.1.tag_name indexer with
            | Conf.scalar q, some c =>
              decide (model (mkFeature (indexer.length + 1) c q) < mkRat 1 2)
            | _, _ => false) p) := by
      intro p hp
      rcases hwf p hp with ⟨q, c, hq, hc⟩
      simp [ErrorDetectorFNN.eval, hq, hc]
    have hres := detectLoop_eq_filter (ErrorDetectorFNN.eval indexer model) _ sp
      (seg ts) hev
    have hdet : ErrorDetectorFNN.detection indexer model seg ts sp false =
        some (List.filter (fun p : SuPair => !decide (p.2 < sp) &&
          match p.1.conf, List.lookup p.1.tag_name indexer with
          | Conf.scalar q, some c =>
            decide (model (mkFeature (indexer.length + 1) c q) < mkRat 1 2)
          | _, _ => false) (seg ts)) := by
      unfold ErrorDetectorFNN.detection detectionOf
      rw [if_neg (not_le.mpr hsp)]
      exact hres
    refine ⟨_, hdet, ?_⟩
    intro p q c hq hc
    rw [List.mem_filter]
    simp [hq, hc, not_lt, and_assoc]

/-- Witness for C4: a one-tag indexer, a constant classifier answering 0
(< 0.5), and one unit of probability 0.9 at pointer 0; also instantiates the
feature-vector description at width 3, column 0, slot 1. -/
theorem C4_fnn_feature_and_threshold_witness :
    ((0 : ℕ) + 1 < 3 ∧ (1 : ℕ) < 3 ∧
      (mkFeature 3 0 (mkRat 9 10))[1]? =
        some (if 1 = 0 then 1 else if 1 = 3 - 1 then mkRat 9 10 else 0)) ∧
      (0 : ℕ) < ([0] : List ℕ).length ∧
      (∀ p ∈ [((⟨"T", Conf.scalar (mkRat 9 10)⟩ : SemanticUnit), 0)],
        ∃ q c, p.1.conf = Conf.scalar q ∧
          List.lookup p.1.tag_name [("T", 0)] = some c) ∧
      ∃ r, ErrorDetectorFNN.detection [("T", 0)] (fun _ => 0)
          (fun _ : List ℕ => [(⟨"T", Conf.scalar (mkRat 9 10)⟩, 0)]) [0] 0 false =
          some r ∧
        ∀ p q c, p.1.conf = Conf.scalar q →
          List.lookup p.1.tag_name [("T", 0)] = some c →
          (p ∈ r ↔ p ∈ [((⟨"T", Conf.scalar (mkRat 9 10)⟩ : SemanticUnit), 0)] ∧
            0 ≤ p.2 ∧ (fun _ : List ℚ => (0 : ℚ)) (mkFeature ([("T", 0)].length + 1) c q) < mkRat 1 2) :=
  ⟨⟨by decide, by decide,
      C4_fnn_feature_and_threshold.1 3 0 (mkRat 9 10) 1 (by decide) (by decide)⟩,
    by decide,
    by
      intro p hp
      simp only [List.mem_cons, List.not_mem_nil, or_false] at hp
      subst hp
      exact ⟨mkRat 9 10, 0, rfl, rfl⟩,
    C4_fnn_feature_and_threshold.2 [("T", 0)] (fun _ => 0)
      (fun _ : List ℕ => [(⟨"T", Conf.scalar (mkRat 9 10)⟩, 0)]) [0] 0 (by decide)
      (by
        intro p hp
        simp only [List.mem_cons, List.not_mem_nil, or_false] at hp
        subst hp
        exact ⟨mkRat 9 10, 0, rfl, rfl⟩)⟩

/-- C8: if some examined unit's tag name (with a scalar probability, the
shape every FNN input carries) is absent from the indexer, the lookup
failure propagates: the whole detection call raises and no partial result is
returned. -/
theorem C8_fnn_unknown_tag {α : Type*} (indexer : List (String × ℕ))
    (model : List ℚ → ℚ) (seg : List α → List SuPair) (ts : List α) (sp : ℕ)
    (hsp : sp < ts.length)
    (hbad : ∃ p ∈ seg ts, sp ≤ p.2 ∧ (∃ q, p.1.conf = Conf.scalar q) ∧
      List.lookup p.1.tag_name indexer = none) :
    ErrorDetectorFNN.detection indexer model seg ts sp false = none := by
  unfold ErrorDetectorFNN.detection detectionOf
  rw [if_neg (not_le.mpr hsp)]
  apply detectLoop_none
  rcases hbad with ⟨p, hp, hge, ⟨q, hq⟩, hlk⟩
  refine ⟨p, hp, hge, ?_⟩
  show ErrorDetectorFNN.eval indexer model p = none
  simp [ErrorDetectorFNN.eval, hq, hlk]

/-- Witness for C8: an empty indexer cannot resolve the tag "T"; the call
raises (`none`), returning no partial result. -/
theorem C8_fnn_unknown_tag_witness :
    (0 : ℕ) < ([0] : List ℕ).length ∧
      (∃ p ∈ [((⟨"T", Conf.scalar (mkRat 9 10)⟩ : SemanticUnit), 0)],
        0 ≤ p.2 ∧ (∃ q, p.1.conf = Conf.scalar q) ∧
          List.lookup p.1.tag_name ([] : List (String × ℕ)) = none) ∧
      ErrorDetectorFNN.detection [] (fun _ => 0)
        (fun _ : List ℕ => [(⟨"T", Conf.scalar (mkRat 9 10)⟩, 0)]) [0] 0 false = none :=
  ⟨by decide,
    ⟨(⟨"T", Conf.scalar (mkRat 9 10)⟩, 0), List.mem_singleton_self _,
      Nat.le_refl 0, ⟨mkRat 9 10, rfl⟩, rfl⟩,
    C8_fnn_unknown_tag [] (fun _ => 0)
      (fun _ : List ℕ => [(⟨"T", Conf.scalar (mkRat 9 10)⟩, 0)]) [0] 0 (by decide)
      ⟨(⟨"T", Conf.scalar (mkRat 9 10)⟩, 0), List.mem_singleton_self _,
        Nat.le_refl 0, ⟨mkRat 9 10, rfl⟩, rfl⟩⟩
